import Mathlib

/-! # Verification of the BrailleTutorApp tactile-device communication layer

Shallow embedding of the Braille codec (`src/src/services/aiTutorService.ts`,
`BrailleTranslationService`), the transfer chunker and print-job pipeline
(`src/src/services/bleDeviceService.ts`, `BLEDeviceService`), the status
parser, the disconnect path and the event fan-out
(`src/src/services/customBLEService.ts`), together with proofs of the spec's
testable properties about them.

Strings are modelled as `List Char`; JavaScript numbers that hold byte /
cell-count values are modelled as `Nat` (all the arithmetic involved is on
small non-negative integers, so no 2^53 wraparound is in play);
`Math.round(x)` on a non-negative rational is `⌊x + 1/2⌋`.
-/

set_option maxRecDepth 100000

namespace BrailleTutor

/-! ## Braille codec tables (aiTutorService.ts)

`BRAILLE_PATTERNS` is a JS object literal; we keep its entries in the exact
order they appear in the source text.  JS object property enumeration
(`Object.entries`) lists array-index-like keys first in ascending numeric
order, then the remaining string keys in insertion order; this matters for
the construction of the reverse map `BRAILLE_TO_TEXT` below, where a later
entry overwrites an earlier one that has the same Braille glyph. -/

/-- `BRAILLE_PATTERNS` object literal, entries in source order. -/
def BRAILLE_PATTERNS : List (String × Char) :=
  [ ("a", '⠁'), ("b", '⠃'), ("c", '⠉'), ("d", '⠙'), ("e", '⠑'),
    ("f", '⠋'), ("g", '⠛'), ("h", '⠓'), ("i", '⠊'), ("j", '⠚'),
    ("k", '⠅'), ("l", '⠇'), ("m", '⠍'), ("n", '⠝'), ("o", '⠕'),
    ("p", '⠏'), ("q", '⠟'), ("r", '⠗'), ("s", '⠎'), ("t", '⠞'),
    ("u", '⠥'), ("v", '⠧'), ("w", '⠺'), ("x", '⠭'), ("y", '⠽'),
    ("z", '⠵'),
    ("1", '⠁'), ("2", '⠃'), ("3", '⠉'), ("4", '⠙'), ("5", '⠑'),
    ("6", '⠋'), ("7", '⠛'), ("8", '⠓'), ("9", '⠊'), ("0", '⠚'),
    (" ", '⠀'),
    (".", '⠲'), (",", '⠂'), ("?", '⠦'), ("!", '⠖'),
    ("'", '⠄'), ("\"", '⠦'), ("-", '⠤'), (":", '⠒'),
    (";", '⠆'), ("(", '⠶'), (")", '⠶'),
    ("capital", '⠠'),
    ("number", '⠼') ]

/-- Property lookup `BRAILLE_PATTERNS[key]` (keys are unique, so position in
the list is irrelevant for lookup). -/
def bpLookup (key : String) : Option Char := BRAILLE_PATTERNS.lookup key

/-- A key of a JS object is enumerated in the numeric-first group iff it is a
canonical array index.  In general that includes multi-digit numerals, but
every key of these tables has at most one character, so the single-digit
test is exact here. -/
def isArrayIndexKey (s : String) : Bool :=
  match s.toList with
  | [c] => '0' ≤ c && c ≤ '9'
  | _ => false

/-- The entries of a JS object in `Object.entries` enumeration order:
array-index keys first in ascending numeric order, then the remaining keys in
insertion order.  (All index keys of `BRAILLE_PATTERNS` are the ten single
digits, so scanning the keys "0".."9" in order is exact.) -/
def jsEnum (l : List (String × Char)) : List (String × Char) :=
  (((List.range 10).map
      (fun n => l.filter
        (fun p => p.1 == String.singleton (Char.ofNat (48 + n))))).flatten)
  ++ l.filter (fun p => !isArrayIndexKey p.1)

/-- `BRAILLE_TO_TEXT[braille] = text` assignment: overwrite an existing key,
else append a new binding (JS object property assignment). -/
def jsAssign (m : List (Char × String)) (k : Char) (v : String) :
    List (Char × String) :=
  if m.any (fun p => p.1 == k) then
    m.map (fun p => if p.1 == k then (k, v) else p)
  else
    m ++ [(k, v)]

/-- The reverse map `BRAILLE_TO_TEXT`, built by the module-level `for` loop:
`for ([text, braille] of Object.entries(BRAILLE_PATTERNS)) if (text.length
=== 1 && text !== 'capital' && text !== 'number') BRAILLE_TO_TEXT[braille] =
text`. -/
def BRAILLE_TO_TEXT : List (Char × String) :=
  (jsEnum BRAILLE_PATTERNS).foldl
    (fun m p =>
      if p.1.length == 1 && p.1 != "capital" && p.1 != "number" then
        jsAssign m p.2 p.1
      else m)
    []

/-- Lookup `BRAILLE_TO_TEXT[char]`. -/
def b2tLookup (c : Char) : Option String := BRAILLE_TO_TEXT.lookup c

/-- `DOT_PATTERNS` object literal (dots in 1-6 format), source order. -/
def DOT_PATTERNS : List (String × List Nat) :=
  [ ("a", [1]), ("b", [1, 2]), ("c", [1, 4]), ("d", [1, 4, 5]), ("e", [1, 5]),
    ("f", [1, 2, 4]), ("g", [1, 2, 4, 5]), ("h", [1, 2, 5]), ("i", [2, 4]),
    ("j", [2, 4, 5]),
    ("k", [1, 3]), ("l", [1, 2, 3]), ("m", [1, 3, 4]), ("n", [1, 3, 4, 5]),
    ("o", [1, 3, 5]),
    ("p", [1, 2, 3, 4]), ("q", [1, 2, 3, 4, 5]), ("r", [1, 2, 3, 5]),
    ("s", [2, 3, 4]), ("t", [2, 3, 4, 5]),
    ("u", [1, 3, 6]), ("v", [1, 2, 3, 6]), ("w", [2, 4, 5, 6]),
    ("x", [1, 3, 4, 6]), ("y", [1, 3, 4, 5, 6]),
    ("z", [1, 3, 5, 6]),
    ("1", [1]), ("2", [1, 2]), ("3", [1, 4]), ("4", [1, 4, 5]), ("5", [1, 5]),
    ("6", [1, 2, 4]), ("7", [1, 2, 4, 5]), ("8", [1, 2, 5]), ("9", [2, 4]),
    ("0", [2, 4, 5]),
    (" ", []),
    (".", [2, 5, 6]), (",", [2]), ("?", [2, 3, 6]), ("!", [2, 3, 5]),
    ("capital", [6]), ("number", [3, 4, 5, 6]) ]

/-- Property lookup `DOT_PATTERNS[key]`. -/
def dpLookup (key : String) : Option (List Nat) := DOT_PATTERNS.lookup key

/-! ## BrailleCell and createCell -/

/-- `BrailleCell` interface: `character` is a `string` (it is `'capital'` /
`'number'` for indicator cells, a one-character string otherwise). -/
structure BrailleCell where
  character : String
  dots : List Nat
  unicode : Char
  dotMatrix : List (List Bool)
  deriving DecidableEq, Repr

/-- The 3×2 `dotMatrix` filled by `createCell`'s loop:
`row = (dot - 1) % 3`, `col = dot <= 3 ? 0 : 1`.  (The tables only contain
dots 1..6, for which the imperative fill and this per-position predicate
agree.) -/
def mkDotMatrix (dots : List Nat) : List (List Bool) :=
  (List.range 3).map (fun r =>
    (List.range 2).map (fun c =>
      dots.any (fun d =>
        ((d - 1) % 3 == r) && ((if d ≤ 3 then 0 else 1) == c))))

/-- `createCell(character, unicode, dots)`. -/
def createCell (character : String) (unicode : Char) (dots : List Nat) :
    BrailleCell :=
  { character := character, dots := dots, unicode := unicode,
    dotMatrix := mkDotMatrix dots }

/-! ## textToBraille -/

/-- `TranslationResult` interface. -/
structure TranslationResult where
  text : List Char
  brailleUnicode : List Char
  cells : List BrailleCell
  dotSequence : List (List Nat)
  deriving DecidableEq, Repr

/-- Loop state of `textToBraille`. -/
structure T2BState where
  cells : List BrailleCell
  brailleUnicode : List Char
  dotSequence : List (List Nat)
  isNumberMode : Bool
  deriving DecidableEq, Repr

/-- Append one cell to the three accumulators (the three `push`/`+=`
statements that always occur together in the source). -/
def pushCell (s : T2BState) (cell : BrailleCell) : T2BState :=
  { s with
    cells := s.cells ++ [cell],
    brailleUnicode := s.brailleUnicode ++ [cell.unicode],
    dotSequence := s.dotSequence ++ [cell.dots] }

/-- `/[A-Z]/.test(char)` — ASCII uppercase only. -/
def testAZ (c : Char) : Bool := 'A' ≤ c && c ≤ 'Z'

/-- `/[0-9]/.test(char)`. -/
def test09 (c : Char) : Bool := '0' ≤ c && c ≤ '9'

/-- `char.toLowerCase()`, modelled on the ASCII range (every key of the
codec tables is ASCII, and the capital branch additionally requires
`/[A-Z]/`, so non-ASCII case pairs never reach a table). -/
def jsToLower (c : Char) : Char := if testAZ c then Char.toLower c else c

/-- The `'capital'` glyph and dots used by the indicator branches
(`BRAILLE_PATTERNS.capital`, `DOT_PATTERNS.capital`); the keys are present,
so the defaults are never used. -/
def capitalGlyph : Char := (bpLookup "capital").getD '⠀'

/-- `DOT_PATTERNS.capital`. -/
def capitalDots : List Nat := (dpLookup "capital").getD []

/-- `BRAILLE_PATTERNS.number`. -/
def numberGlyph : Char := (bpLookup "number").getD '⠀'

/-- `DOT_PATTERNS.number`. -/
def numberDots : List Nat := (dpLookup "number").getD []

/-- One iteration of the `textToBraille` character loop. -/
def t2bStep (s : T2BState) (char : Char) : T2BState :=
  let lowerChar := jsToLower char
  -- Handle capitals: `char !== lowerChar && /[A-Z]/.test(char)`
  let s :=
    if char ≠ lowerChar ∧ testAZ char then
      { pushCell s (createCell "capital" capitalGlyph capitalDots) with
        isNumberMode := false }
    else s
  -- Handle numbers: `/[0-9]/.test(char) && !isNumberMode`
  let s :=
    if test09 char ∧ ¬ s.isNumberMode then
      { pushCell s (createCell "number" numberGlyph numberDots) with
        isNumberMode := true }
    else s
  -- Reset number mode on non-number: `!/[0-9]/.test(char) && char !== ' '`
  let s :=
    if ¬ test09 char ∧ char ≠ ' ' then { s with isNumberMode := false }
    else s
  -- Pattern lookup and conditional emit
  let pattern := bpLookup (String.singleton lowerChar)
  let dots := (dpLookup (String.singleton lowerChar)).getD []
  match pattern with
  | some p => pushCell s (createCell (String.singleton char) p dots)
  | none => s

/-- `BrailleTranslationService.textToBraille`. -/
def textToBraille (text : List Char) : TranslationResult :=
  let s := text.foldl t2bStep
    { cells := [], brailleUnicode := [], dotSequence := [],
      isNumberMode := false }
  { text := text, brailleUnicode := s.brailleUnicode, cells := s.cells,
    dotSequence := s.dotSequence }

/-! ## brailleToText -/

/-- The `numMap` object in `brailleToText`. -/
def NUM_MAP : List (String × String) :=
  [ ("a", "1"), ("b", "2"), ("c", "3"), ("d", "4"), ("e", "5"),
    ("f", "6"), ("g", "7"), ("h", "8"), ("i", "9"), ("j", "0") ]

/-- Loop state of `brailleToText`. -/
structure B2TState where
  text : List Char
  capitalNext : Bool
  numberMode : Bool
  deriving DecidableEq, Repr

/-- One iteration of the `brailleToText` character loop. -/
def b2tStep (s : B2TState) (char : Char) : B2TState :=
  if char = capitalGlyph then { s with capitalNext := true }
  else if char = numberGlyph then { s with numberMode := true }
  else
    -- `let converted = BRAILLE_TO_TEXT[char] || ''`
    let converted := (b2tLookup char).getD ""
    -- `if (numberMode && /[a-j]/.test(converted))` then map a-j to 1-0
    let converted :=
      if s.numberMode ∧ converted.toList.any (fun c => 'a' ≤ c && c ≤ 'j') then
        (NUM_MAP.lookup converted).getD converted
      else converted
    -- `if (capitalNext && converted)` — nonempty string is truthy
    let up := s.capitalNext ∧ converted ≠ ""
    let converted :=
      if up then String.mk (converted.toList.map Char.toUpper) else converted
    let capitalNext := if up then false else s.capitalNext
    -- `if (char === '⠀' || converted === ' ')` reset number mode
    let numberMode :=
      if char = '⠀' ∨ converted = " " then false else s.numberMode
    { text := s.text ++ converted.toList,
      capitalNext := capitalNext, numberMode := numberMode }

/-- `BrailleTranslationService.brailleToText`. -/
def brailleToText (brailleUnicode : List Char) : List Char :=
  (brailleUnicode.foldl b2tStep
    { text := [], capitalNext := false, numberMode := false }).text

/-! ## Transfer chunker and byte encoding (bleDeviceService.ts) -/

/-- `encodePrintData`'s per-cell loop: `let byte = 0; for (const dot of
dots) byte |= (1 << (dot - 1))`.  (JS `<<` is 32-bit, but the dots fed to it
are always in 1..6, where plain `Nat` shifts agree with it; validity of the
dots is an explicit hypothesis of the bit-level theorem.) -/
def encodeCell (dots : List Nat) : Nat :=
  dots.foldl (fun byte dot => byte ||| (1 <<< (dot - 1))) 0

/-- `BLEDeviceService.encodePrintData`: one byte per cell. -/
def encodePrintData (cells : List (List Nat)) : List Nat :=
  cells.map encodeCell

/-- `const chunkSize = 20; // BLE MTU limit` in `printBraille`. -/
def chunkSize : Nat := 20

/-- The chunks taken by `printBraille`'s loop
`for (let i = 0; i < totalCells; i += chunkSize) dotSequence.slice(i, i +
chunkSize)`: iteration `j` has `i = 20 * j`, and the loop runs while
`20 * j < n`, i.e. for `j < ⌈n / 20⌉ = (n + 19) / 20` iterations. -/
def chunkCells (cells : List (List Nat)) : List (List (List Nat)) :=
  (List.range ((cells.length + chunkSize - 1) / chunkSize)).map
    (fun j => (cells.drop (chunkSize * j)).take chunkSize)

/-! ## Print job pipeline (BLEDeviceService.printBraille)

The pipeline is `async`, but entirely sequential: each chunk is awaited
before the next.  We model one run of `printBraille` as a pure function of
the dot sequence and of which (if any) BLE write is made to fail: write `j`
(0-based) is the `j`-th chunk write, and write `numChunks` is the terminal
`[0x01]` print-command write.  A failing write throws, which the source
catches by setting `job.status = 'error'` and returning `success: false`;
no further events are emitted. -/

/-- Events emitted by `printBraille` through `emitEvent` (payloads reduced
to the fields the properties are about). -/
inductive PrintEvent where
  | printStarted
  | printProgress (progress : Nat)
  | printCompleted
  deriving DecidableEq, Repr

/-- `PrintJob.status` values. -/
inductive JobStatus where
  | queued
  | printing
  | completed
  | error
  deriving DecidableEq, Repr

/-- `Math.round((a / b) * 100)` for natural `a`, `b` with `b > 0`:
`⌊100·a/b + 1/2⌋ = ⌊(200·a + b) / (2·b)⌋`.  (`printBraille` only evaluates
this with `b = totalCells > 0`, since the loop body is reached only when
`totalCells > i ≥ 0`.) -/
def jsRound100 (a b : Nat) : Nat := (200 * a + b) / (2 * b)

/-- The chunk-write loop of `printBraille`: `total` is `totalCells`, `sent`
is the running `i + chunk.length` (cells transferred so far), `idx` the
0-based index of the next chunk.  Returns the `printProgress` events emitted
and whether the loop ran to completion (`false` = a write threw). -/
def sendChunks (total : Nat) (failAt : Option Nat) :
    List (List (List Nat)) → Nat → Nat → List PrintEvent × Bool
  | [], _, _ => ([], true)
  | chunk :: rest, idx, sent =>
    if failAt = some idx then ([], false)
    else
      let sent' := sent + chunk.length
      let r := sendChunks total failAt rest (idx + 1) sent'
      (PrintEvent.printProgress (jsRound100 sent' total) :: r.1, r.2)

/-- Result of one `printBraille` run: the emitted events, the job's final
`status`, and the `success` flag of the returned value. -/
structure PrintRun where
  events : List PrintEvent
  status : JobStatus
  success : Bool
  deriving DecidableEq, Repr

/-- `BLEDeviceService.printBraille` with a connected device, as a function
of the dot sequence and the injected write failure (`failAt = some j` makes
the `j`-th BLE write throw; `none` = all writes succeed). -/
def printBraille (dotSequence : List (List Nat)) (failAt : Option Nat) :
    PrintRun :=
  let chunks := chunkCells dotSequence
  let totalCells := dotSequence.length
  let r := sendChunks totalCells failAt chunks 0 0
  if r.2 then
    -- all chunk writes succeeded; the terminal command write follows
    if failAt = some chunks.length then
      { events := PrintEvent.printStarted :: r.1,
        status := JobStatus.error, success := false }
    else
      { events := PrintEvent.printStarted :: r.1 ++ [PrintEvent.printCompleted],
        status := JobStatus.completed, success := true }
  else
    { events := PrintEvent.printStarted :: r.1,
      status := JobStatus.error, success := false }

/-- The values of the `printProgress` events of a trace, in emission
order. -/
def progressValues (events : List PrintEvent) : List Nat :=
  events.filterMap (fun e =>
    match e with
    | PrintEvent.printProgress p => some p
    | _ => none)

/-! ## Status poller (BLEDeviceService.getDeviceStatus) -/

/-- `DeviceStatus` as produced from a successful 3-byte status read. -/
structure DeviceStatus where
  connected : Bool
  batteryLevel : Nat
  paperLoaded : Bool
  errorCode : Option Nat
  errorMessage : Option String
  deriving DecidableEq, Repr

/-- `BLEDeviceService.getErrorMessage` for a numeric (non-`null`) code: the
fixed `errors` table, with fallback `` `Unknown error (${code})` ``. -/
def getErrorMessage (code : Nat) : String :=
  if code = 1 then "Paper jam detected"
  else if code = 2 then "Out of paper"
  else if code = 3 then "Overheating - please wait"
  else if code = 4 then "Low battery"
  else if code = 5 then "Communication error"
  else "Unknown error (" ++ toString code ++ ")"

/-- The status object built by `getDeviceStatus` when the read succeeds and
returns the three raw bytes `b0 b1 b2`:
`{ connected: true, batteryLevel: data[0] || 100, paperLoaded: data[1] === 1,
errorCode: data[2] || null, errorMessage: this.getErrorMessage(data[2]) }`.
JS `x || 100` yields `100` when `x` is `0`. -/
def parseStatus (b0 b1 b2 : Nat) : DeviceStatus :=
  { connected := true,
    batteryLevel := if b0 = 0 then 100 else b0,
    paperLoaded := b1 == 1,
    errorCode := if b2 = 0 then none else some b2,
    errorMessage := some (getErrorMessage b2) }

/-! ## Disconnect path (BLEDeviceService.disconnect)

`disconnect` is:
```
if (!this._connectedDevice) return;
try {
  await customBLEService.disconnect();
  const deviceId = this._connectedDevice.id;
  this._connectedDevice = null;
  this.emitEvent('disconnected', { deviceId });
} catch (err) { console.error('Disconnect error:', err); }
```
`customBLEService.disconnect()` as written catches internally and returns a
result object, but the spec's property injects a failure into the underlying
teardown call ("even if the underlying teardown call is made to fail"),
i.e. makes the awaited call reject; the `catch` block then only logs, so the
statements after the `await` never run. -/

/-- Manager state relevant to `disconnect`: the `_connectedDevice` slot. -/
structure BLEState where
  connectedDevice : Option String
  deriving DecidableEq, Repr

/-- Outcome of the awaited underlying teardown call. -/
inductive TeardownOutcome where
  | ok
  | throws
  deriving DecidableEq, Repr

/-- Events emitted by the disconnect path. -/
inductive DeviceEvent where
  | disconnected (deviceId : String)
  deriving DecidableEq, Repr

/-- `BLEDeviceService.disconnect`, parameterized by the teardown outcome.
Returns the new state and the emitted events. -/
def disconnect (s : BLEState) (t : TeardownOutcome) :
    BLEState × List DeviceEvent :=
  match s.connectedDevice with
  | none => (s, [])
  | some deviceId =>
    match t with
    | TeardownOutcome.ok =>
      ({ connectedDevice := none }, [DeviceEvent.disconnected deviceId])
    | TeardownOutcome.throws =>
      -- the exception skips `this._connectedDevice = null`; the catch only logs
      (s, [])

/-! ## Event fan-out (emitEvent in both services)

Both services share the same loop:
```
for (const callback of this.eventListeners) {
  try { callback(event, data); } catch (err) { console.error(...); }
}
```
A listener is modelled by an identifier and whether its callback throws when
invoked; invoking it records its identifier.  Note that un/re-subscription
during dispatch cannot disturb the loop: `addEventListener`'s unsubscriber
and `removeEventListener` both *replace* the array (`filter` returns a new
array) while `for..of` iterates the original one. -/

/-- A registered event listener: `id` identifies the callback, `throws`
says whether calling it raises an exception. -/
structure Listener where
  id : Nat
  throws : Bool
  deriving DecidableEq, Repr

/-- Invoking one callback with the event being dispatched: the call happens
(`(id, event)` is appended to the invocation log) and then either returns
normally or throws. -/
def invokeListener (event : String) (l : Listener)
    (log : List (Nat × String)) :
    List (Nat × String) × Except String Unit :=
  (log ++ [(l.id, event)],
   if l.throws then Except.error "Event listener error" else Except.ok ())

/-- The `emitEvent` loop over the listener list: every iteration wraps the
call in `try`/`catch`, so an `Except.error` from a callback is swallowed and
the loop continues; the function itself always returns normally. -/
def emitEvent (event : String) :
    List Listener → List (Nat × String) →
      List (Nat × String) × Except String Unit
  | [], log => (log, Except.ok ())
  | l :: rest, log =>
    let r := invokeListener event l log
    match r.2 with
    | Except.ok _ => emitEvent event rest r.1
    | Except.error _ => emitEvent event rest r.1   -- caught: logged, continue

/-! ## General lemmas about the embedding -/

/-- `chunkSize` unfolding for arithmetic automation. -/
theorem chunkSize_eq : chunkSize = 20 := rfl

/-- `testBit` of the running `byte |= 1 << (dot - 1)` fold. -/
theorem encodeCell_fold_testBit (dots : List Nat) (acc i : Nat) :
    (dots.foldl (fun byte dot => byte ||| (1 <<< (dot - 1))) acc).testBit i
      = (acc.testBit i || dots.any (fun d => decide (d - 1 = i))) := by
  induction dots generalizing acc with
  | nil => simp
  | cons d ds ih =>
    rw [List.foldl_cons, ih]
    simp only [List.any_cons, Nat.testBit_lor, Nat.shiftLeft_eq, one_mul,
      Nat.testBit_two_pow, Bool.or_assoc]

/-- The chunk taken at iteration `j` of the `printBraille` loop. -/
theorem chunkCells_get (cells : List (List Nat)) (j : Nat)
    (h : j < (chunkCells cells).length) :
    (chunkCells cells).get ⟨j, h⟩ =
      (cells.drop (chunkSize * j)).take chunkSize := by
  simp [chunkCells]

/-- Number of chunks produced by the loop. -/
theorem chunkCells_length (cells : List (List Nat)) :
    (chunkCells cells).length = (cells.length + chunkSize - 1) / chunkSize := by
  simp [chunkCells]

/-- Concatenating chunks of the form `slice(20*j, 20*j + 20)` for
`j < m` recovers the whole list once `20 * m` covers its length. -/
theorem flatten_sliceChunks (m : Nat) :
    ∀ l : List (List Nat), l.length ≤ chunkSize * m →
      ((List.range m).map
        (fun j => (l.drop (chunkSize * j)).take chunkSize)).flatten = l := by
  induction m with
  | zero =>
    intro l h
    have : l = [] := List.eq_nil_of_length_eq_zero (by omega)
    simp [this]
  | succ m ih =>
    intro l h
    rw [List.range_succ_eq_map, List.map_cons, List.map_map]
    have hmap :
        (List.range m).map
            ((fun j => (l.drop (chunkSize * j)).take chunkSize) ∘ Nat.succ)
          = (List.range m).map
            (fun j => ((l.drop chunkSize).drop (chunkSize * j)).take chunkSize) := by
      refine List.map_congr_left (fun j _ => ?_)
      simp only [Function.comp_apply, List.drop_drop]
      rw [Nat.mul_succ, Nat.add_comm (chunkSize * j) chunkSize]
    have hrest : (l.drop chunkSize).length ≤ chunkSize * m := by
      simp only [List.length_drop, chunkSize_eq] at h ⊢
      omega
    rw [hmap, List.flatten_cons, ih (l.drop chunkSize) hrest]
    simp

/-- The chunks of `printBraille` concatenate back to the whole sequence. -/
theorem chunkCells_flatten (cells : List (List Nat)) :
    (chunkCells cells).flatten = cells := by
  rw [chunkCells]
  exact flatten_sliceChunks _ cells (by simp only [chunkSize_eq]; omega)

/-! ## Claim C1 -/

/-- C1, counterexample: the claim states that `character_to_dots('Z') =
{1,3,5,6}` encodes to byte `0b101101`; the code's `DOT_PATTERNS['z']` is
indeed `[1,3,5,6]`, but its byte encoding is `0b110101` (= 53), not
`0b101101` (= 45, which is the encoding of dots `{1,3,4,6}`, i.e. 'x'). -/
theorem C1_counterexample :
    dpLookup "z" = some [1, 3, 5, 6] ∧ encodeCell [1, 3, 5, 6] ≠ 0b101101 := by
  decide

/-- C1 (amended): the byte encoding of a dot cell sets bit `(dot-1)` for
every active dot (and no others), so `character_to_dots('A') = {1}` encodes
to byte `0b000001` and `character_to_dots('Z') = {1,3,5,6}` encodes to byte
`0b110101`. -/
theorem C1_byte_encoding :
    (∀ dots : List Nat, (∀ d ∈ dots, 1 ≤ d ∧ d ≤ 6) →
      ∀ i : Nat, ((encodeCell dots).testBit i = true ↔ i + 1 ∈ dots))
    ∧ dpLookup "a" = some [1] ∧ encodeCell [1] = 0b000001
    ∧ dpLookup "z" = some [1, 3, 5, 6] ∧ encodeCell [1, 3, 5, 6] = 0b110101 := by
  refine ⟨?_, by decide, by decide, by decide, by decide⟩
  intro dots h i
  rw [encodeCell, encodeCell_fold_testBit]
  simp only [Nat.zero_testBit, Bool.false_or, List.any_eq_true,
    decide_eq_true_eq]
  constructor
  · rintro ⟨d, hd, rfl⟩
    have h1 : 1 ≤ d := (h d hd).1
    have heq : d - 1 + 1 = d := by omega
    rwa [heq]
  · intro hmem
    exact ⟨i + 1, hmem, by simp⟩

/-- C1, witness: the bit-level statement applied to the dots of 'z'. -/
theorem C1_byte_encoding_witness :
    (∀ d ∈ ([1, 3, 5, 6] : List Nat), 1 ≤ d ∧ d ≤ 6)
    ∧ ((encodeCell [1, 3, 5, 6]).testBit 4 = true ↔ 5 ∈ ([1, 3, 5, 6] : List Nat)) :=
  ⟨by decide, C1_byte_encoding.1 [1, 3, 5, 6] (by decide) 4⟩

/-! ## Claim C5 -/

/-- C5 (confirmed): for every non-empty cell sequence, `printBraille`'s
chunking produces exactly `⌈n / 20⌉` chunks (`(n + 19) / 20`, characterized
below as the least `m` with `n ≤ 20 * m`), every chunk except possibly the
last has length 20, and the concatenation of the chunks' byte encodings is
the byte encoding of the whole sequence (so the chunk lengths sum to `n`). -/
theorem C5_chunking (cells : List (List Nat)) (hne : cells ≠ []) :
    (chunkCells cells).length = (cells.length + chunkSize - 1) / chunkSize
    ∧ cells.length ≤ chunkSize * (chunkCells cells).length
    ∧ chunkSize * ((chunkCells cells).length - 1) < cells.length
    ∧ (∀ j : Nat, ∀ h : j + 1 < (chunkCells cells).length,
        ((chunkCells cells).get ⟨j, Nat.lt_of_succ_lt h⟩).length = chunkSize)
    ∧ ((chunkCells cells).map encodePrintData).flatten = encodePrintData cells
    ∧ ((chunkCells cells).map List.length).sum = cells.length := by
  have hflat := chunkCells_flatten cells
  have hlen := chunkCells_length cells
  have hn : 0 < cells.length := List.length_pos.mpr hne
  refine ⟨hlen, ?_, ?_, ?_, ?_, ?_⟩
  · rw [hlen, chunkSize_eq]; omega
  · rw [hlen, chunkSize_eq]; omega
  · intro j h
    rw [chunkCells_get]
    rw [hlen] at h
    simp only [List.length_take, List.length_drop, chunkSize_eq] at h ⊢
    omega
  · have hmap : List.map encodePrintData (chunkCells cells)
        = List.map (List.map encodeCell) (chunkCells cells) :=
      List.map_congr_left (fun c _ => rfl)
    rw [hmap, ← List.map_flatten, hflat]
    rfl
  · rw [← hflat, List.length_flatten, hflat]

/-- C5, witness: the chunking contract applied to a 45-cell sequence
(3 chunks of sizes 20, 20, 5). -/
theorem C5_chunking_witness :
    (List.replicate 45 ([1] : List Nat) ≠ [])
    ∧ ((chunkCells (List.replicate 45 ([1] : List Nat))).map List.length).sum
        = (List.replicate 45 ([1] : List Nat)).length :=
  ⟨by decide, (C5_chunking (List.replicate 45 [1]) (by decide)).2.2.2.2.2⟩

/-! ## Claim C2 -/

/-- C2, counterexample: '?' is a supported punctuation character
(`BRAILLE_PATTERNS['?'] = '⠦'`), but decoding its encoding yields '"'
rather than '?': '"' shares the glyph '⠦' and is written into the reverse
map later, overwriting the binding for '?'. -/
theorem C2_counterexample :
    bpLookup "?" = some '⠦'
    ∧ brailleToText (textToBraille ['?']).brailleUnicode ≠ ['?'] := by
  decide

/-- C2 (amended): decoding inverts encoding for every grade-1 letter (either
case, with case preserved), every digit (value preserved), the space, and
every supported punctuation character except '?' and '(' ; those two share
their glyphs with '"' and ')' respectively ('⠦' and '⠶'), so they decode to
'"' and ')'. -/
theorem C2_roundTrip :
    ((['a', 'b', 'c', 'd', 'e', 'f', 'g', 'h', 'i', 'j', 'k', 'l', 'm',
       'n', 'o', 'p', 'q', 'r', 's', 't', 'u', 'v', 'w', 'x', 'y', 'z',
       'A', 'B', 'C', 'D', 'E', 'F', 'G', 'H', 'I', 'J', 'K', 'L', 'M',
       'N', 'O', 'P', 'Q', 'R', 'S', 'T', 'U', 'V', 'W', 'X', 'Y', 'Z',
       '0', '1', '2', '3', '4', '5', '6', '7', '8', '9',
       ' ', '.', ',', '!', '\'', '"', '-', ':', ';', ')'] : List Char).all
      (fun c => brailleToText (textToBraille [c]).brailleUnicode == [c]))
      = true
    ∧ brailleToText (textToBraille ['?']).brailleUnicode = ['"']
    ∧ brailleToText (textToBraille ['(']).brailleUnicode = [')'] := by
  decide

/-! ## Claim C3 -/

/-- C3, counterexample: encoding `"A1B2"` inserts two numeral indicator
cells, not one — the capital-letter branch for 'B' resets numeral mode, so
'2' needs a fresh indicator; and encoding `"1 2"` inserts one numeral
indicator, not two — a space does not reset numeral mode in the encoder. -/
theorem C3_counterexample :
    (textToBraille ['A', '1', 'B', '2']).cells.countP
        (fun c => c.character == "number") ≠ 1
    ∧ (textToBraille ['1', ' ', '2']).cells.countP
        (fun c => c.character == "number") ≠ 2 := by
  decide

/-- C3 (amended): the encoder emits one numeral indicator per digit run,
where a run is broken by any non-digit character other than space (including
an intervening capital letter) and continues across spaces: `"A1B2"` gets
two numeral indicators (one before '1' and one before '2'), and `"1 2"`
gets exactly one (before '1', none before '2'). -/
theorem C3_numeralMode :
    (textToBraille ['A', '1', 'B', '2']).cells.map BrailleCell.character
      = ["capital", "A", "number", "1", "capital", "B", "number", "2"]
    ∧ (textToBraille ['1', ' ', '2']).cells.map BrailleCell.character
      = ["number", "1", " ", "2"] := by
  decide

/-! ## Claim C4 -/

/-- A character is mapped by the codec iff `BRAILLE_PATTERNS[lowerChar]`
exists; unmapped characters emit no cell at all. -/
def hasPattern (c : Char) : Bool :=
  (bpLookup (String.singleton (jsToLower c))).isSome

/-- C4, counterexample: '%' has no Braille pattern, so `textToBraille "%"`
drops it and returns 0 cells, violating `len(cells) ≥ len(text)`. -/
theorem C4_counterexample :
    (textToBraille ['%']).cells.length < (['%'] : List Char).length := by
  decide

/-- `pushCell` adds exactly one cell. -/
theorem pushCell_cells_length (s : T2BState) (cell : BrailleCell) :
    (pushCell s cell).cells.length = s.cells.length + 1 := by
  simp [pushCell]

/-- One encoder step never removes cells, and adds at least one cell for a
mapped character. -/
theorem t2bStep_cells_length (s : T2BState) (c : Char)
    (h : hasPattern c = true) :
    s.cells.length + 1 ≤ (t2bStep s c).cells.length := by
  obtain ⟨p, hp⟩ := Option.isSome_iff_exists.mp (by simpa [hasPattern] using h)
  simp only [t2bStep, hp]
  split_ifs <;> simp [pushCell_cells_length]

/-- Fold version of the cell-count lower bound. -/
theorem foldl_t2bStep_cells_length (text : List Char) :
    ∀ s : T2BState, (∀ c ∈ text, hasPattern c = true) →
      s.cells.length + text.length ≤ (text.foldl t2bStep s).cells.length := by
  induction text with
  | nil => intro s _; simp
  | cons c cs ih =>
    intro s h
    have h1 := t2bStep_cells_length s c (h c (by simp))
    have h2 := ih (t2bStep s c) (fun d hd => h d (by simp [hd]))
    simp only [List.foldl_cons, List.length_cons]
    omega

/-- C4 (amended): for every input text all of whose characters have a
Braille pattern, `len(cells) ≥ len(text)` — indicator cells only ever add
entries.  (For texts with unmapped characters the invariant fails, because
unmapped characters are dropped silently; see the counterexample.) -/
theorem C4_cells_length (text : List Char)
    (h : ∀ c ∈ text, hasPattern c = true) :
    text.length ≤ (textToBraille text).cells.length := by
  have := foldl_t2bStep_cells_length text
    { cells := [], brailleUnicode := [], dotSequence := [],
      isNumberMode := false } h
  simpa [textToBraille] using this

/-- C4, witness: the invariant applied to "Hi1". -/
theorem C4_cells_length_witness :
    (∀ c ∈ (['H', 'i', '1'] : List Char), hasPattern c = true)
    ∧ (['H', 'i', '1'] : List Char).length
        ≤ (textToBraille ['H', 'i', '1']).cells.length :=
  ⟨by decide, C4_cells_length ['H', 'i', '1'] (by decide)⟩

/-! ## Lemmas about the print pipeline -/

/-- `Math.round(100·a/b)` is monotone in the numerator. -/
theorem jsRound100_mono {a b : Nat} (t : Nat) (h : a ≤ b) :
    jsRound100 a t ≤ jsRound100 b t :=
  Nat.div_le_div_right (by omega)

/-- Transferring everything reports exactly 100. -/
theorem jsRound100_self (t : Nat) (h : 0 < t) : jsRound100 t t = 100 := by
  rw [jsRound100]
  exact Nat.div_eq_of_lt_le (by omega) (by omega)

/-- With no injected failure, the chunk loop runs to completion. -/
theorem sendChunks_none_ok (total : Nat) :
    ∀ (cs : List (List (List Nat))) (idx sent : Nat),
      (sendChunks total none cs idx sent).2 = true := by
  intro cs
  induction cs with
  | nil => intro idx sent; rfl
  | cons c rest ih =>
    intro idx sent
    simp only [sendChunks, reduceCtorEq, if_false]
    exact ih (idx + 1) (sent + c.length)

/-- Every event emitted by the chunk loop is a `printProgress` event. -/
theorem sendChunks_progress_only (total : Nat) (failAt : Option Nat) :
    ∀ (cs : List (List (List Nat))) (idx sent : Nat),
      ∀ e ∈ (sendChunks total failAt cs idx sent).1,
        ∃ p, e = PrintEvent.printProgress p := by
  intro cs
  induction cs with
  | nil => intro idx sent e he; simp [sendChunks] at he
  | cons c rest ih =>
    intro idx sent e he
    rw [sendChunks] at he
    by_cases hidx : failAt = some idx
    · simp [hidx] at he
    · simp only [hidx, if_false, List.mem_cons] at he
      rcases he with he | he
      · exact ⟨_, he⟩
      · exact ih (idx + 1) (sent + c.length) e he

/-- The progress values of the chunk loop form a non-decreasing chain, even
when prefixed with the progress value of the cells already sent. -/
theorem sendChunks_chain (total : Nat) :
    ∀ (cs : List (List (List Nat))) (idx sent : Nat),
      List.Chain' (· ≤ ·)
        (jsRound100 sent total
          :: progressValues (sendChunks total none cs idx sent).1) := by
  intro cs
  induction cs with
  | nil => intro idx sent; simp [sendChunks, progressValues]
  | cons c rest ih =>
    intro idx sent
    simp only [sendChunks, reduceCtorEq, if_false, progressValues,
      List.filterMap_cons]
    rw [List.chain'_cons]
    exact ⟨jsRound100_mono total (by omega),
      by simpa [progressValues] using ih (idx + 1) (sent + c.length)⟩

/-- The last event of a non-empty chunk loop reports all cells sent so
far. -/
theorem sendChunks_getLast (total : Nat) :
    ∀ (cs : List (List (List Nat))) (idx sent : Nat), cs ≠ [] →
      (sendChunks total none cs idx sent).1.getLast?
        = some (PrintEvent.printProgress
            (jsRound100 (sent + (cs.map List.length).sum) total)) := by
  intro cs
  induction cs with
  | nil => intro idx sent h; exact absurd rfl h
  | cons c rest ih =>
    intro idx sent _
    cases hr : rest with
    | nil =>
      subst hr
      simp [sendChunks, progressValues]
    | cons c' rest' =>
      subst hr
      have hlast := ih (idx + 1) (sent + c.length) (by simp)
      simp only [sendChunks, reduceCtorEq, if_false] at hlast ⊢
      rw [List.getLast?_cons_cons, hlast]
      simp [Nat.add_assoc]

/-- The progress event of 0-based chunk `j` is emitted whenever the injected
failure (if any) only hits a later write; its value is computed from the
cells transferred through chunk `j`. -/
theorem sendChunks_mem_progress (total : Nat) (failAt : Option Nat) :
    ∀ (cs : List (List (List Nat))) (idx sent j : Nat),
      j < cs.length →
      (∀ i, failAt = some i → idx + j < i) →
      PrintEvent.printProgress
          (jsRound100 (sent + ((cs.take (j + 1)).map List.length).sum) total)
        ∈ (sendChunks total failAt cs idx sent).1 := by
  intro cs
  induction cs with
  | nil => intro idx sent j hj _; simp at hj
  | cons c rest ih =>
    intro idx sent j hj hfar
    have hne : ¬ failAt = some idx := by
      intro h
      have := hfar idx h
      omega
    rw [sendChunks, if_neg hne]
    cases j with
    | zero =>
      simp
    | succ j' =>
      have hj' : j' < rest.length := by
        simp only [List.length_cons] at hj
        omega
      have hfar' : ∀ i, failAt = some i → (idx + 1) + j' < i := by
        intro i hi
        have := hfar i hi
        omega
      have heq : sent + (((c :: rest).take (j' + 1 + 1)).map List.length).sum
          = (sent + c.length) + ((rest.take (j' + 1)).map List.length).sum := by
        simp only [List.take_succ_cons, List.map_cons, List.sum_cons]
        omega
      rw [heq]
      exact List.mem_cons_of_mem _ (ih (idx + 1) (sent + c.length) j' hj' hfar')

/-- If the injected failure hits one of the remaining chunks, the loop
reports failure. -/
theorem sendChunks_fail (total j : Nat) (failAt : Option Nat)
    (hj : failAt = some j) :
    ∀ (cs : List (List (List Nat))) (idx sent : Nat),
      idx ≤ j → j < idx + cs.length →
      (sendChunks total failAt cs idx sent).2 = false := by
  intro cs
  induction cs with
  | nil => intro idx sent h1 h2; simp at h2; omega
  | cons c rest ih =>
    intro idx sent h1 h2
    rw [sendChunks]
    split
    · rfl
    · rename_i hne
      have : idx ≠ j := fun h => hne (by rw [hj, h])
      have h1' : idx + 1 ≤ j := by omega
      have h2' : j < (idx + 1) + rest.length := by
        simp at h2
        omega
      exact ih (idx + 1) (sent + c.length) h1' h2'

/-! ## Claim C6 -/

/-- C6, counterexample: the empty dot sequence is a print job that runs to
successful completion (`status = completed`, `success = true`) yet emits no
`Progress` event at all, so its `Progress` sequence does not end with
100. -/
theorem C6_counterexample :
    (printBraille [] none).status = JobStatus.completed
    ∧ (printBraille [] none).success = true
    ∧ (progressValues (printBraille [] none).events).getLast? ≠ some 100 := by
  decide

/-- C6 (amended): for every print job with a *non-empty* payload that runs
to successful completion, the emitted `Progress` values are non-decreasing
and end with exactly 100, emitted immediately before the `Completed`
event.  (The empty payload completes successfully with no `Progress` events
at all; see the counterexample.) -/
theorem C6_progress (cells : List (List Nat)) (hne : cells ≠ []) :
    List.Chain' (· ≤ ·) (progressValues (printBraille cells none).events)
    ∧ (printBraille cells none).status = JobStatus.completed
    ∧ ∃ pre, (printBraille cells none).events
        = pre ++ [PrintEvent.printProgress 100, PrintEvent.printCompleted] := by
  have hn : 0 < cells.length := List.length_pos.mpr hne
  have hchne : chunkCells cells ≠ [] := by
    refine List.length_pos.mp ?_
    rw [chunkCells_length, chunkSize_eq]
    omega
  have hsum : ((chunkCells cells).map List.length).sum = cells.length := by
    rw [← List.length_flatten, chunkCells_flatten]
  have hrun : printBraille cells none =
      { events := PrintEvent.printStarted ::
          (sendChunks cells.length none (chunkCells cells) 0 0).1
          ++ [PrintEvent.printCompleted],
        status := JobStatus.completed, success := true } := by
    simp only [printBraille, sendChunks_none_ok, if_true, reduceCtorEq,
      if_false]
  have hlast : (sendChunks cells.length none (chunkCells cells) 0 0).1.getLast?
      = some (PrintEvent.printProgress 100) := by
    rw [sendChunks_getLast cells.length (chunkCells cells) 0 0 hchne,
      Nat.zero_add, hsum, jsRound100_self cells.length hn]
  have hevne : (sendChunks cells.length none (chunkCells cells) 0 0).1 ≠ [] := by
    intro h0
    rw [h0] at hlast
    simp at hlast
  have hd := List.dropLast_append_getLast?
    (l := (sendChunks cells.length none (chunkCells cells) 0 0).1)
    (PrintEvent.printProgress 100) (by rw [Option.mem_def, hlast])
  refine ⟨?_, ?_, ?_⟩
  · rw [hrun]
    have hchain := (sendChunks_chain cells.length (chunkCells cells) 0 0).tail
    simpa [progressValues, List.filterMap_append] using hchain
  · rw [hrun]
  · refine ⟨PrintEvent.printStarted ::
      (sendChunks cells.length none (chunkCells cells) 0 0).1.dropLast, ?_⟩
    simp only [hrun, List.cons_append]
    refine congrArg _ ?_
    conv_lhs => rw [← hd]
    simp

/-- C6, witness: the progress contract applied to a one-cell job. -/
theorem C6_progress_witness :
    (([[1]] : List (List Nat)) ≠ [])
    ∧ (List.Chain' (· ≤ ·) (progressValues (printBraille [[1]] none).events)
      ∧ (printBraille [[1]] none).status = JobStatus.completed
      ∧ ∃ pre, (printBraille [[1]] none).events
          = pre ++ [PrintEvent.printProgress 100, PrintEvent.printCompleted]) :=
  ⟨by decide, C6_progress [[1]] (by decide)⟩

/-! ## Claim C7 -/

/-- C7, counterexample: 4201 cells make 211 chunks; when the write of
1-based chunk 210 (< 211) fails, the job does terminate in `Error` with no
`Completed` event, but a `Progress` event with value exactly 100 has already
been emitted for chunk 209, because
`Math.round(100 * 4180 / 4201) = 100`. -/
theorem C7_counterexample :
    (chunkCells (List.replicate 4201 ([1] : List Nat))).length = 211
    ∧ (printBraille (List.replicate 4201 ([1] : List Nat)) (some 209)).status
        = JobStatus.error
    ∧ PrintEvent.printCompleted
        ∉ (printBraille (List.replicate 4201 ([1] : List Nat)) (some 209)).events
    ∧ PrintEvent.printProgress 100
        ∈ (printBraille (List.replicate 4201 ([1] : List Nat)) (some 209)).events := by
  have hcl : (List.replicate 4201 ([1] : List Nat)).length = 4201 :=
    List.length_replicate 4201 [1]
  have hlen : (chunkCells (List.replicate 4201 ([1] : List Nat))).length = 211 := by
    rw [chunkCells_length, chunkSize_eq, hcl]
  have hfail : (sendChunks 4201
      (some 209) (chunkCells (List.replicate 4201 ([1] : List Nat))) 0 0).2
      = false := by
    refine sendChunks_fail _ 209 _ rfl _ 0 0 (by omega) (by rw [hlen]; omega)
  have hrun : printBraille (List.replicate 4201 ([1] : List Nat)) (some 209) =
      { events := PrintEvent.printStarted ::
          (sendChunks 4201 (some 209)
            (chunkCells (List.replicate 4201 ([1] : List Nat))) 0 0).1,
        status := JobStatus.error, success := false } := by
    simp only [printBraille, hcl, hfail, Bool.false_eq_true, if_false]
  -- the cells transferred through 0-based chunk 208 (1-based 209): 209 full
  -- chunks of 20 cells
  have htake : ((chunkCells (List.replicate 4201 ([1] : List Nat))).take 209).map
      List.length = List.replicate 209 20 := by
    rw [chunkCells, ← List.map_take, List.take_range, List.map_map, hcl,
      chunkSize_eq]
    have hm : min 209 ((4201 + 20 - 1) / 20) = 209 := by norm_num
    rw [hm]
    refine List.eq_replicate_iff.mpr
      ⟨by rw [List.length_map, List.length_range], ?_⟩
    intro b hb
    simp only [List.mem_map, List.mem_range, Function.comp_apply,
      List.length_take, List.length_drop, List.length_replicate] at hb
    obtain ⟨j, hj, hbj⟩ := hb
    omega
  have hsum : (((chunkCells (List.replicate 4201 ([1] : List Nat))).take 209).map
      List.length).sum = 4180 := by
    rw [htake, List.sum_const_nat]
  have hmem := sendChunks_mem_progress 4201 (some 209)
    (chunkCells (List.replicate 4201 ([1] : List Nat))) 0 0 208
    (by rw [hlen]; omega)
    (by intro i hi; cases hi; omega)
  rw [Nat.zero_add, hsum] at hmem
  have h100 : jsRound100 4180 4201 = 100 := by decide
  rw [h100] at hmem
  refine ⟨hlen, by rw [hrun], ?_, ?_⟩
  · rw [hrun]
    intro hcm
    rcases List.mem_cons.mp hcm with h | h
    · exact absurd h (by simp)
    · obtain ⟨p, hp⟩ := sendChunks_progress_only _ _ _ _ _ _ h
      exact absurd hp (by simp)
  · rw [hrun]
    exact List.mem_cons_of_mem _ hmem

/-- C7 (amended): if the chunk write fails on 1-based chunk `k` of `n`
chunks with `k < n`, the job terminates with status `Error` (the returned
result has `success = false`) and no `Completed` event is ever emitted.
(A `Progress` event of value 100 can nevertheless already have been emitted
for an earlier chunk, through rounding — see the counterexample.) -/
theorem C7_midTransferFailure (cells : List (List Nat)) (k : Nat)
    (h1 : 1 ≤ k) (h2 : k < (chunkCells cells).length) :
    (printBraille cells (some (k - 1))).status = JobStatus.error
    ∧ (printBraille cells (some (k - 1))).success = false
    ∧ PrintEvent.printCompleted ∉ (printBraille cells (some (k - 1))).events := by
  have hfail : (sendChunks cells.length (some (k - 1)) (chunkCells cells) 0 0).2
      = false := by
    refine sendChunks_fail cells.length (k - 1) (some (k - 1)) rfl
      (chunkCells cells) 0 0 (by omega) (by omega)
  have hrun : printBraille cells (some (k - 1)) =
      { events := PrintEvent.printStarted ::
          (sendChunks cells.length (some (k - 1)) (chunkCells cells) 0 0).1,
        status := JobStatus.error, success := false } := by
    simp only [printBraille, hfail, Bool.false_eq_true, if_false]
  refine ⟨by rw [hrun], by rw [hrun], ?_⟩
  rw [hrun]
  intro hmem
  rcases List.mem_cons.mp hmem with h | h
  · exact absurd h (by simp)
  · obtain ⟨p, hp⟩ := sendChunks_progress_only cells.length (some (k - 1))
      (chunkCells cells) 0 0 PrintEvent.printCompleted h
    exact absurd hp (by simp)

/-- C7, witness: a failure on chunk 1 of 3 (45 cells). -/
theorem C7_midTransferFailure_witness :
    (1 ≤ 1)
    ∧ 1 < (chunkCells (List.replicate 45 ([1] : List Nat))).length
    ∧ (printBraille (List.replicate 45 ([1] : List Nat)) (some (1 - 1))).status
        = JobStatus.error :=
  ⟨Nat.le_refl 1, by decide,
    (C7_midTransferFailure (List.replicate 45 [1]) 1 (Nat.le_refl 1)
      (by decide)).1⟩

/-! ## Claim C8 -/

/-- C8, counterexample: a raw battery byte of 0 is reported as battery level
100, not 0 — `data[0] || 100` treats the byte 0 as falsy. -/
theorem C8_counterexample :
    (parseStatus 0 1 2).batteryLevel = 100
    ∧ (parseStatus 0 1 2).batteryLevel ≠ 0 := by
  decide

/-- C8 (amended): on a successful 3-byte status read, `battery_level` equals
the first byte when it is non-zero and 100 when the first byte is 0 (JS
falsy default); `paper_loaded` is true iff the second byte equals 1; the
third byte is mapped through the fixed table 1 = paper jam, 2 = out of
paper, 3 = overheating, 4 = low battery, 5 = communication error, and any
other non-zero code is reported as `Unknown error (code)` (the `errorCode`
field is `null` exactly when the third byte is 0). -/
theorem C8_statusParsing (b0 b1 b2 : Nat) :
    (parseStatus b0 b1 b2).connected = true
    ∧ (parseStatus b0 b1 b2).batteryLevel = (if b0 = 0 then 100 else b0)
    ∧ ((parseStatus b0 b1 b2).paperLoaded = true ↔ b1 = 1)
    ∧ ((parseStatus b0 b1 b2).errorCode = if b2 = 0 then none else some b2)
    ∧ (b2 = 1 →
      (parseStatus b0 b1 b2).errorMessage = some "Paper jam detected")
    ∧ (b2 = 2 → (parseStatus b0 b1 b2).errorMessage = some "Out of paper")
    ∧ (b2 = 3 →
      (parseStatus b0 b1 b2).errorMessage = some "Overheating - please wait")
    ∧ (b2 = 4 → (parseStatus b0 b1 b2).errorMessage = some "Low battery")
    ∧ (b2 = 5 →
      (parseStatus b0 b1 b2).errorMessage = some "Communication error")
    ∧ (b2 ≠ 1 → b2 ≠ 2 → b2 ≠ 3 → b2 ≠ 4 → b2 ≠ 5 →
      (parseStatus b0 b1 b2).errorMessage
        = some ("Unknown error (" ++ toString b2 ++ ")")) := by
  refine ⟨rfl, rfl, ?_, rfl, ?_, ?_, ?_, ?_, ?_, ?_⟩
  · simp [parseStatus]
  all_goals intro h
  · subst h; rfl
  · subst h; rfl
  · subst h; rfl
  · subst h; rfl
  · subst h; rfl
  · intro h2 h3 h4 h5
    simp [parseStatus, getErrorMessage, h, h2, h3, h4, h5]

/-- C8, witness: the parsing contract applied to the raw bytes (0, 1, 7). -/
theorem C8_statusParsing_witness :
    ((parseStatus 0 1 7).paperLoaded = true ↔ (1 : Nat) = 1)
    ∧ (parseStatus 0 1 7).errorMessage
        = some ("Unknown error (" ++ toString (7 : Nat) ++ ")") :=
  ⟨(C8_statusParsing 0 1 7).2.2.1,
    (C8_statusParsing 0 1 7).2.2.2.2.2.2.2.2.2 (by decide) (by decide)
      (by decide) (by decide) (by decide)⟩

/-! ## Claim C9 -/

/-- C9 (code bug): `disconnect()` is idempotent and, when the underlying
teardown call returns normally, clears the connected-device slot — but when
the teardown call is made to fail (throw), the `catch` block only logs, so
`_connectedDevice` keeps its old value and the manager still reports a
device as connected.  The spec requires the slot to be cleared even in that
case ("must never report a false connected state"); the first conjunct
exhibits the violating execution. -/
theorem C9_disconnect :
    (disconnect { connectedDevice := some "BRAILLE-01" }
        TeardownOutcome.throws).1.connectedDevice = some "BRAILLE-01"
    ∧ (disconnect { connectedDevice := some "BRAILLE-01" }
        TeardownOutcome.ok).1.connectedDevice = none
    ∧ disconnect { connectedDevice := none } TeardownOutcome.ok
        = ({ connectedDevice := none }, [])
    ∧ disconnect { connectedDevice := none } TeardownOutcome.throws
        = ({ connectedDevice := none }, []) := by
  decide

/-! ## Claim C10 -/

/-- The `emitEvent` loop appends one invocation per listener and always
returns normally, whatever the throw behaviour of the callbacks. -/
theorem emitEvent_run (event : String) :
    ∀ (ls : List Listener) (log : List (Nat × String)),
      emitEvent event ls log
        = (log ++ ls.map (fun l => (l.id, event)), Except.ok ()) := by
  intro ls
  induction ls with
  | nil => intro log; simp [emitEvent]
  | cons l rest ih =>
    intro log
    rw [emitEvent]
    cases hth : l.throws <;>
      simp [invokeListener, hth, ih, List.append_assoc]

/-- C10 (confirmed): whenever an event is emitted, every callback registered
at that moment is invoked exactly once with that event, in registration
order; a callback that throws neither prevents delivery to the remaining
callbacks nor makes the emitting operation fail. -/
theorem C10_eventFanout (event : String) (listeners : List Listener) :
    (emitEvent event listeners []).1
      = listeners.map (fun l => (l.id, event))
    ∧ (emitEvent event listeners []).2 = Except.ok () := by
  rw [emitEvent_run]
  simp

end BrailleTutor
